import Mathlib

/-!
Verification of the Vid2Frames repository's export-and-dispatch spec.

Each section embeds one component of the source (the TypeScript functions in
src/Client/src/poc-2/NodeMailerSetup.md, src/Client/src/poc-2/MicrosoftGraph.md,
src/Client/src/App.tsx and src/unnamed/part_000, part_001) as Lean definitions,
and the theorems at the end settle the spec's claims about them.

Conventions used throughout the embedding:
* JavaScript numbers that the code only ever uses as non-negative integers
  (millisecond durations, run counts, indices) are modelled as Nat; epoch
  timestamps that could be signed are Int.
* JavaScript string conversion String(n) of a natural number is Nat.repr,
  which produces the same decimal digit string.
* JavaScript truthiness on an optional string field (undefined or "" are
  falsy) is made explicit via the falsy / truthy helpers below.
* JavaScript objects used as keyed maps are modelled as functions into Option.
* Code that can throw (property access on undefined) is modelled with Except.
-/

namespace Vid2Frames

/-! ## Decimal-representation groundwork

Facts about Nat.repr (the embedding of JavaScript String(n) for a
non-negative integer n) needed to reason about zero-padding: its length is
1 for n < 10, at least 2 for n ≥ 10, at least 3 for n ≥ 100, and it never
contains a colon. Core defines Nat.repr n = (Nat.toDigitsCore 10 (n+1) n []).asString.
-/

theorem toDigitsCore_length_ge_one :
    ∀ (fuel n : Nat) (ds : List Char), 0 < fuel →
      ds.length + 1 ≤ (Nat.toDigitsCore 10 fuel n ds).length := by
  intro fuel
  induction fuel with
  | zero => intro n ds h; omega
  | succ f ih =>
    intro n ds _
    rw [Nat.toDigitsCore]
    by_cases h10 : n / 10 = 0
    · simp [h10]
    · simp only [h10, if_false]
      rcases Nat.eq_zero_or_pos f with hf | hf
      · subst hf; rw [Nat.toDigitsCore]; simp
      · have := ih (n / 10) (Nat.digitChar (n % 10) :: ds) hf
        simp only [List.length_cons] at this
        omega

theorem toDigitsCore_length_ge :
    ∀ (fuel n : Nat) (ds : List Char) (k : Nat), n < fuel → 10 ^ k ≤ n →
      ds.length + k + 1 ≤ (Nat.toDigitsCore 10 fuel n ds).length := by
  intro fuel
  induction fuel with
  | zero => intro n ds k h _; omega
  | succ f ih =>
    intro n ds k hlt hpow
    rw [Nat.toDigitsCore]
    by_cases h10 : n / 10 = 0
    · have hn : n < 10 := by omega
      have hk : k = 0 := by
        by_contra hk
        have : 10 ^ 1 ≤ 10 ^ k := Nat.pow_le_pow_right (by omega) (by omega)
        simp at this
        omega
      subst hk
      simp [h10]
    · simp only [h10, if_false]
      have hdivlt : n / 10 < f := by omega
      cases k with
      | zero =>
        have h1 : 1 ≤ n / 10 := by omega
        have := ih (n / 10) (Nat.digitChar (n % 10) :: ds) 0 hdivlt (by simpa using h1)
        simp only [List.length_cons] at this
        omega
      | succ k =>
        have hdiv : 10 ^ k ≤ n / 10 := by
          rw [Nat.le_div_iff_mul_le (by omega)]
          calc 10 ^ k * 10 = 10 ^ (k + 1) := by ring
          _ ≤ n := hpow
        have := ih (n / 10) (Nat.digitChar (n % 10) :: ds) k hdivlt hdiv
        simp only [List.length_cons] at this
        omega

theorem digitChar_isDigit (m : Nat) (h : m < 10) :
    (Nat.digitChar m).isDigit = true := by
  interval_cases m <;> decide

theorem toDigitsCore_digits :
    ∀ (fuel n : Nat) (ds : List Char), (∀ c ∈ ds, c.isDigit = true) →
      ∀ c ∈ Nat.toDigitsCore 10 fuel n ds, c.isDigit = true := by
  intro fuel
  induction fuel with
  | zero => intro n ds h; simpa [Nat.toDigitsCore] using h
  | succ f ih =>
    intro n ds hds
    rw [Nat.toDigitsCore]
    by_cases h10 : n / 10 = 0
    · simp only [h10, if_true]
      intro c hc
      rcases List.mem_cons.mp hc with rfl | hc
      · exact digitChar_isDigit _ (Nat.mod_lt _ (by omega))
      · exact hds c hc
    · simp only [h10, if_false]
      refine ih (n / 10) _ ?_
      intro c hc
      rcases List.mem_cons.mp hc with rfl | hc
      · exact digitChar_isDigit _ (Nat.mod_lt _ (by omega))
      · exact hds c hc

theorem repr_data (n : Nat) :
    (Nat.repr n).data = Nat.toDigitsCore 10 (n + 1) n [] := rfl

theorem repr_chars_digit (n : Nat) : ∀ c ∈ (Nat.repr n).data, c.isDigit = true := by
  rw [repr_data]
  exact toDigitsCore_digits (n + 1) n [] (by simp)

theorem repr_length_eq_one (n : Nat) (h : n < 10) : (Nat.repr n).length = 1 := by
  interval_cases n <;> decide

theorem repr_length_ge_two (n : Nat) (h : 10 ≤ n) : 2 ≤ (Nat.repr n).length := by
  have := toDigitsCore_length_ge (n + 1) n [] 1 (by omega) (by simpa using h)
  simpa [String.length, repr_data] using this

theorem repr_length_ge_three (n : Nat) (h : 100 ≤ n) : 3 ≤ (Nat.repr n).length := by
  have := toDigitsCore_length_ge (n + 1) n [] 2 (by omega) (by simpa using h)
  simpa [String.length, repr_data] using this

/-! ## String padding

Embedding of JavaScript String.prototype.padStart(2, "0"), used by the
NodeMailer-variant formatters.
-/

/-- JavaScript s.padStart(2, "0"): if the string is shorter than two
characters, prepend zeros up to length two, otherwise return it unchanged. -/
def padStart2 (s : String) : String :=
  if s.length < 2 then String.mk (List.replicate (2 - s.length) '0') ++ s else s

theorem padStart2_repr (n : Nat) :
    padStart2 (Nat.repr n) = if n < 10 then "0" ++ Nat.repr n else Nat.repr n := by
  by_cases h : n < 10
  · have hlen := repr_length_eq_one n h
    simp [padStart2, hlen, h]
  · have hlen := repr_length_ge_two n (by omega)
    simp [padStart2, h]
    omega

theorem length_padStart2_repr (n : Nat) :
    (padStart2 (Nat.repr n)).length = max 2 (Nat.repr n).length := by
  rw [padStart2_repr]
  by_cases h : n < 10
  · have hlen := repr_length_eq_one n h
    simp [h, hlen, String.length_append]
    rfl
  · have hlen := repr_length_ge_two n (by omega)
    simp [h]
    omega

/-! ## Timing and metadata formatters

Two variants of the duration formatter appear in the source: the one inside
generateExcel in NodeMailerSetup.md (modulo arithmetic) and the one inside
generateExcel in MicrosoftGraph.md (repeated subtraction). Similarly two
variants of the run-count formatter: String(runs).padStart(2, "0") in
NodeMailerSetup.md and (runs < 10 ? "0" + runs : runs) in MicrosoftGraph.md;
the latter returns a number, not a string, for runs ≥ 10.
-/

/-- epochToHHMMSS from NodeMailerSetup.md generateExcel:
sec = floor(ms/1000), fields sec/3600, (sec%3600)/60, sec%60 each rendered
with String(x).padStart(2, "0") and joined with colons. -/
def epochToHHMMSS (timems : Nat) : String :=
  let sec := timems / 1000
  let h := padStart2 (Nat.repr (sec / 3600))
  let m := padStart2 (Nat.repr ((sec % 3600) / 60))
  let s := padStart2 (Nat.repr (sec % 60))
  h ++ ":" ++ m ++ ":" ++ s

/-- epochToHHMMSS from MicrosoftGraph.md generateExcel: hours = floor(sec/3600),
minutes = floor((sec - hours*3600)/60), seconds = sec - hours*3600 - minutes*60,
each prefixed with "0" when below 10. -/
def epochToHHMMSSGraph (timems : Nat) : String :=
  let sec_num := timems / 1000
  let hours := sec_num / 3600
  let minutes := (sec_num - hours * 3600) / 60
  let seconds := sec_num - hours * 3600 - minutes * 60
  let hs := if hours < 10 then "0" ++ Nat.repr hours else Nat.repr hours
  let ms := if minutes < 10 then "0" ++ Nat.repr minutes else Nat.repr minutes
  let ss := if seconds < 10 then "0" ++ Nat.repr seconds else Nat.repr seconds
  hs ++ ":" ++ ms ++ ":" ++ ss

/-- singleToDouble from NodeMailerSetup.md generateExcel:
String(runs).padStart(2, "0"); always a string. -/
def singleToDouble (runs : Nat) : String :=
  padStart2 (Nat.repr runs)

/-- JavaScript union type number | string, the return type of the
MicrosoftGraph.md run-count formatter. -/
inductive StrOrNum where
  | str (s : String)
  | num (n : Nat)
deriving DecidableEq, Repr

/-- Whether a number-or-string value is a string. -/
def StrOrNum.isStr : StrOrNum → Bool
  | .str _ => true
  | .num _ => false

/-- singleToDouble from MicrosoftGraph.md generateExcel:
runs < 10 ? "0" + runs : runs — a string for runs below ten, otherwise the
number itself, unpadded. -/
def singleToDoubleGraph (runs : Nat) : StrOrNum :=
  if runs < 10 then .str ("0" ++ Nat.repr runs) else .num runs

/-- The hours field of a formatted duration: the characters before the first
colon. -/
def hoursField (s : String) : String :=
  String.mk (s.data.takeWhile (fun c => decide (c ≠ ':')))

theorem string_data_append (s t : String) : (s ++ t).data = s.data ++ t.data := by
  cases s; cases t; rfl

theorem string_mk_data (s : String) : String.mk s.data = s := by
  cases s; rfl

theorem padStart2_repr_digits (n : Nat) :
    ∀ c ∈ (padStart2 (Nat.repr n)).data, c.isDigit = true := by
  intro c hc
  unfold padStart2 at hc
  by_cases h : (Nat.repr n).length < 2
  · simp only [h, if_true, string_data_append] at hc
    rcases List.mem_append.mp hc with hc | hc
    · have hc0 : c = '0' := List.eq_of_mem_replicate hc
      subst hc0; decide
    · exact repr_chars_digit n c hc
  · simp only [h, if_false] at hc
    exact repr_chars_digit n c hc

theorem takeWhile_append_stop (p : Char → Bool) (a : List Char) (c : Char) (b : List Char)
    (ha : ∀ x ∈ a, p x = true) (hc : p c = false) :
    (a ++ c :: b).takeWhile p = a := by
  induction a with
  | nil => simp [List.takeWhile_cons, hc]
  | cons x xs ih =>
    have hx : p x = true := ha x (by simp)
    simp only [List.cons_append, List.takeWhile_cons, hx, if_true]
    rw [ih (fun y hy => ha y (by simp [hy]))]

theorem hoursField_epochToHHMMSS (ms : Nat) :
    hoursField (epochToHHMMSS ms) = padStart2 (Nat.repr (ms / 1000 / 3600)) := by
  unfold epochToHHMMSS hoursField
  simp only [string_data_append]
  have hcolon : (":").data = [':'] := rfl
  simp only [hcolon, List.append_assoc, List.singleton_append, List.cons_append,
    List.nil_append]
  have hstop : List.takeWhile (fun c => decide (c ≠ ':'))
      ((padStart2 (Nat.repr (ms / 1000 / 3600))).data ++
        ':' :: ((padStart2 (Nat.repr (ms / 1000 % 3600 / 60))).data ++
          ':' :: (padStart2 (Nat.repr (ms / 1000 % 60))).data)) =
      (padStart2 (Nat.repr (ms / 1000 / 3600))).data := by
    apply takeWhile_append_stop
    · intro x hx
      have hdig := padStart2_repr_digits (ms / 1000 / 3600) x hx
      simp only [decide_eq_true_eq]
      intro hcontr
      rw [hcontr] at hdig
      exact absurd hdig (by decide)
    · decide
  rw [hstop]

theorem epochToHHMMSSGraph_eq_epochToHHMMSS (timems : Nat) :
    epochToHHMMSSGraph timems = epochToHHMMSS timems := by
  unfold epochToHHMMSSGraph epochToHHMMSS
  have h1 : timems / 1000 - timems / 1000 / 3600 * 3600 = timems / 1000 % 3600 := by
    omega
  have h2 : timems / 1000 % 3600 - timems / 1000 % 3600 / 60 * 60 =
      timems / 1000 % 60 := by
    omega
  simp only [h1, h2, padStart2_repr]

/-- Concrete check that the duration formatter produces the documented
sample values. -/
theorem epochToHHMMSS_samples :
    epochToHHMMSS 0 = "00:00:00" ∧ epochToHHMMSS 3661000 = "01:01:01" ∧
    epochToHHMMSS 86399000 = "23:59:59" := by
  refine ⟨by decide, by decide, by decide⟩

/-- C4 counterexample: the claim states that every input of at least 24 hours
yields an hours field wider than two digits, but at exactly 24 hours
(86400000 ms) the formatter returns "24:00:00", whose hours field has exactly
two characters. -/
theorem C4_duration_counterexample :
    24 * 3600 * 1000 ≤ 86400000 ∧
    epochToHHMMSS 86400000 = "24:00:00" ∧
    (hoursField (epochToHHMMSS 86400000)).length = 2 := by
  refine ⟨by norm_num, by decide, by decide⟩

/-- C4 (amended): the duration formatter returns H:MM:SS with each field
zero-padded to two digits and hours = floor(totalSeconds/3600) with no
modulo-24 wrap; the two source variants (NodeMailerSetup.md and
MicrosoftGraph.md) agree; 0 maps to "00:00:00", 3661000 to "01:01:01",
86399000 to "23:59:59"; the hours field becomes wider than two digits only
for inputs of at least 100 hours, while inputs in the range from 24 hours up
to (excluding) 100 hours keep a two-digit unwrapped hours field. -/
theorem C4_duration_formatter :
    (∀ ms : Nat, epochToHHMMSSGraph ms = epochToHHMMSS ms)
    ∧ (epochToHHMMSS 0 = "00:00:00" ∧ epochToHHMMSS 3661000 = "01:01:01" ∧
        epochToHHMMSS 86399000 = "23:59:59")
    ∧ (∀ ms : Nat, hoursField (epochToHHMMSS ms) = padStart2 (Nat.repr (ms / 1000 / 3600)))
    ∧ (∀ ms : Nat, 100 * 3600 * 1000 ≤ ms → 3 ≤ (hoursField (epochToHHMMSS ms)).length)
    ∧ (∀ ms : Nat, 24 * 3600 * 1000 ≤ ms → ms < 100 * 3600 * 1000 →
        (hoursField (epochToHHMMSS ms)).length = 2) := by
  refine ⟨epochToHHMMSSGraph_eq_epochToHHMMSS, epochToHHMMSS_samples,
    hoursField_epochToHHMMSS, ?_, ?_⟩
  · intro ms hms
    have hh : 100 ≤ ms / 1000 / 3600 := by omega
    rw [hoursField_epochToHHMMSS, length_padStart2_repr]
    have := repr_length_ge_three _ hh
    omega
  · intro ms h1 h2
    have hh1 : 10 ≤ ms / 1000 / 3600 := by omega
    have hh2 : ms / 1000 / 3600 < 100 := by omega
    rw [hoursField_epochToHHMMSS, length_padStart2_repr]
    have hge := repr_length_ge_two _ hh1
    have hle := Nat.repr_length (ms / 1000 / 3600) 2 (by omega) (by omega)
    omega

/-- C4 witness: the amended duration-formatter theorem applied at 3661000 ms
(version agreement), 360000000 ms = 100 h (hours field at least three digits)
and 90000000 ms = 25 h (hours field exactly two digits). -/
theorem C4_duration_formatter_witness :
    epochToHHMMSSGraph 3661000 = epochToHHMMSS 3661000 ∧
    3 ≤ (hoursField (epochToHHMMSS 360000000)).length ∧
    (hoursField (epochToHHMMSS 90000000)).length = 2 :=
  ⟨C4_duration_formatter.1 3661000,
   C4_duration_formatter.2.2.2.1 360000000 (by norm_num),
   C4_duration_formatter.2.2.2.2 90000000 (by norm_num) (by norm_num)⟩

/-- C7 counterexample: the claim states the run-count formatter always
returns a string, but the MicrosoftGraph.md variant returns the bare number
42 (not a string) for input 42. -/
theorem C7_runcount_counterexample :
    singleToDoubleGraph 42 = .num 42 ∧ (singleToDoubleGraph 42).isStr = false := by
  refine ⟨by decide, by decide⟩

/-- C7 (amended): the NodeMailerSetup.md run-count formatter always returns a
string zero-padded to width exactly two and no more (5 to "05", 42 to "42",
150 to "150"); the MicrosoftGraph.md variant pads only values below ten (as a
string) and returns values of ten or more as bare numbers, not strings. -/
theorem C7_runcount_formatter :
    (singleToDouble 5 = "05" ∧ singleToDouble 42 = "42" ∧ singleToDouble 150 = "150")
    ∧ (∀ n : Nat, (singleToDouble n).length = max 2 (Nat.repr n).length)
    ∧ (∀ n : Nat, n < 10 → singleToDoubleGraph n = .str ("0" ++ Nat.repr n))
    ∧ (∀ n : Nat, 10 ≤ n →
        singleToDoubleGraph n = .num n ∧ (singleToDoubleGraph n).isStr = false) := by
  refine ⟨⟨by decide, by decide, by decide⟩, ?_, ?_, ?_⟩
  · intro n
    exact length_padStart2_repr n
  · intro n hn
    simp [singleToDoubleGraph, hn]
  · intro n hn
    have h : ¬ n < 10 := by omega
    simp [singleToDoubleGraph, h, StrOrNum.isStr]

/-- C7 witness: the amended run-count theorem applied at 7 (length law),
3 (below-ten Graph case) and 150 (at-least-ten Graph case). -/
theorem C7_runcount_formatter_witness :
    (singleToDouble 7).length = max 2 (Nat.repr 7).length ∧
    singleToDoubleGraph 3 = .str ("0" ++ Nat.repr 3) ∧
    singleToDoubleGraph 150 = .num 150 :=
  ⟨C7_runcount_formatter.2.1 7, C7_runcount_formatter.2.2.1 3 (by norm_num),
   (C7_runcount_formatter.2.2.2 150 (by norm_num)).1⟩

/-! ## Variant data model and screenshot correlation

Embeds the data consumed by generateExcel / generatePPT / generateWord in
NodeMailerSetup.md and MicrosoftGraph.md: the parsed variant (ordered step
entries, a nodes map keyed by the step's screenshot reference, aggregate
counters), the elasticsearch result items, and the two keyed lookup maps the
code builds from them (timeStampMap keyed by timestamp, hashedTargetValue
keyed by screenshot reference).
-/

/-- One item of elasticData.data.elasticsearchFieldsData, projected to the
three consumed fields of item.source. -/
structure ElasticItem where
  timestamp : Nat
  description : String
  screenshot : String
deriving DecidableEq, Repr

/-- The value stored in timeStampMap for one timestamp. -/
structure TSRecord where
  description : String
  screenshot : String
deriving DecidableEq, Repr

/-- timeStampMap from generateExcel: a forEach over the elasticsearch result
assigning timeStampMap by item timestamp; a later item with the same
timestamp overwrites an earlier one, as JavaScript object assignment does. -/
def buildTimeStampMap (items : List ElasticItem) : Nat → Option TSRecord :=
  items.foldl
    (fun m it t =>
      if t = it.timestamp then some ⟨it.description, it.screenshot⟩ else m t)
    (fun _ => none)

/-- One entry of parsedData.stepData (Object.entries order = insertion
order = execution order); screenshot is the key into parsedData.nodes and
hashedTargetValue, timestamp the key into timeStampMap. -/
structure StepData where
  description : String
  translatedDescription : String
  screenshot : String
  timestamp : Nat
deriving DecidableEq, Repr

/-- One entry of parsedData.nodes. The url field holds the already-parsed
URL array (the source JSON.parses a string-typed url before use). -/
structure NodeInfo where
  apptype : String
  xpath : String
  url : Option (List String)
  timestamp : Int
deriving DecidableEq, Repr

/-- parsedData.count: the variant's aggregate counters. -/
structure Counters where
  created_on : Int
  last_run_on : Int
  max_time : Nat
  avg_time : Nat
  min_time : Nat
  no_of_runs : Nat
  coverage : Nat
deriving DecidableEq, Repr

/-- The parsed variant consumed by the builders. -/
structure ParsedData where
  stepData : List StepData
  nodes : String → Option NodeInfo
  count : Counters

/-- One record of hashedTargetValue.current, projected to its source
application-type fields: appType is the legacy spelling, apptype the current
one; either may be absent. -/
structure HashedSource where
  appType : Option String
  apptype : Option String
deriving DecidableEq, Repr

/-- JavaScript truthiness of an optional string field: undefined and the
empty string are falsy; a truthy value passes through. -/
def truthy : Option String → Option String
  | none => none
  | some s => if s = "" then none else some s

/-- The forEach callback of the NodeMailerSetup.md aggregation: read both
the legacy appType and the current apptype field of the hashed record for
the step's screenshot key, and push each value that is truthy and not
already recorded. -/
def nmAppTypeStep (hashed : String → Option HashedSource)
    (acc : List String) (nd : StepData) : List String :=
  let app1 := truthy ((hashed nd.screenshot).bind HashedSource.appType)
  let app2 := truthy ((hashed nd.screenshot).bind HashedSource.apptype)
  let acc1 := match app1 with
    | some a => if a ∈ acc then acc else acc ++ [a]
    | none => acc
  match app2 with
  | some a => if a ∈ acc1 then acc1 else acc1 ++ [a]
  | none => acc1

/-- Application-type aggregation from NodeMailerSetup.md generateExcel. -/
def apptypesNodeMailer (hashed : String → Option HashedSource)
    (steps : List StepData) : List String :=
  steps.foldl (nmAppTypeStep hashed) []

/-- The single value per step the MicrosoftGraph.md aggregation considers:
appType || apptype, the first truthy of the two fields. -/
def graphCandidate (hashed : String → Option HashedSource) (nd : StepData) :
    Option String :=
  (truthy ((hashed nd.screenshot).bind HashedSource.appType)).orElse
    (fun _ => truthy ((hashed nd.screenshot).bind HashedSource.apptype))

/-- The forEach callback of the MicrosoftGraph.md aggregation: push the
first truthy of the two fields when it is new. -/
def graphAppTypeStep (hashed : String → Option HashedSource)
    (acc : List String) (nd : StepData) : List String :=
  match graphCandidate hashed nd with
  | some a => if a ∈ acc then acc else acc ++ [a]
  | none => acc

/-- Application-type aggregation from MicrosoftGraph.md generateExcel. -/
def apptypesGraph (hashed : String → Option HashedSource)
    (steps : List StepData) : List String :=
  steps.foldl (graphAppTypeStep hashed) []

/-- Append an element to an accumulator unless it is already present: the
push pattern used by both aggregations. -/
def insertNew (acc : List String) (a : String) : List String :=
  if a ∈ acc then acc else acc ++ [a]

/-- First-appearance deduplication of a list. -/
def firstDedup (l : List String) : List String :=
  l.foldl insertNew []

/-- The application-type values one step contributes, legacy field first. -/
def candidateApps (hashed : String → Option HashedSource) (nd : StepData) :
    List String :=
  (truthy ((hashed nd.screenshot).bind HashedSource.appType)).toList ++
    (truthy ((hashed nd.screenshot).bind HashedSource.apptype)).toList

/-! ## Document builders

The Excel builder (NodeMailerSetup.md generateExcel) is embedded in full:
two sheets, fixed metadata rows, mode-dependent step columns, one data row
and one embedded image per step. Property access on a missing nodes entry or
a missing timeStampMap record throws a TypeError in the source; the
embedding surfaces that as an Except error recording the zero-based step
index at which the builder aborts. The PPT builder (MicrosoftGraph.md
generatePPT) and PDF builder (generateDocument) never dereference a
per-step screenshot record; the Word builder delegates to VariantWordDoc.
-/

/-- A cell value: the source writes strings and raw numbers into cells. -/
inductive CellVal where
  | s (v : String)
  | n (v : Nat)
deriving DecidableEq, Repr

/-- Error raised while building a document (a thrown TypeError at a step, or
a missing assembled document), with the zero-based step index where the
Excel builder aborts. -/
inductive BuildErr where
  | missingNode (stepIndex : Nat)
  | missingScreenshot (stepIndex : Nat)
  | documentAssemblyFailed
deriving DecidableEq, Repr

/-- An image embedded in the steps sheet: the step it belongs to and the
base64 payload taken from the resolved screenshot record. -/
structure SheetImage where
  stepIdx : Nat
  base64 : String
deriving DecidableEq, Repr

/-- One worksheet: name, frozen first row (views ySplit 1), columns (header
and width; the metadata sheet's columns carry widths only), data rows added
via addRow, bold styling, embedded images and the fixed data-row height. -/
structure Sheet where
  name : String
  frozen : Bool
  columns : List (Option String × Nat)
  rows : List (List CellVal)
  firstColBold : Bool
  headerRowBold : Bool
  images : List SheetImage
  dataRowHeight : Option Nat
deriving DecidableEq, Repr

structure Workbook where
  sheets : List Sheet
deriving DecidableEq, Repr

/-- The finalized spreadsheet file (name, MIME type, workbook). -/
structure ExcelFile where
  name : String
  mime : String
  workbook : Workbook
deriving DecidableEq, Repr

/-- The URL cell of a step row: the first element of the node's parsed URL
array when truthy and the node's apptype is not in the deny set
SAP/EXCEL/OUTLOOK, else the empty string. -/
def stepUrl (pd : ParsedData) (nd : StepData) : String :=
  match pd.nodes nd.screenshot with
  | none => ""
  | some node =>
    match node.url with
    | some (u :: _) =>
      if u ≠ "" ∧ node.apptype ∉ ["SAP", "EXCEL", "OUTLOOK"] then u else ""
    | some [] => ""
    | none => ""

/-- One data row of the steps sheet. Plain-variant layout: step no,
description, empty image cell, xpath for SAP nodes, timestamp rendering,
URL; the translated layout inserts the translated description after the
description. jsDate is the ambient JavaScript Date toString rendering. -/
def stepRow (pd : ParsedData) (jsDate : Int → String) (isVariant : Bool)
    (idx : Nat) (nd : StepData) (node : NodeInfo) : List CellVal :=
  let xp := if node.apptype = "SAP" then node.xpath else ""
  if isVariant then
    [.s (singleToDouble (idx + 1)), .s nd.description, .s "", .s xp,
     .s (jsDate node.timestamp), .s (stepUrl pd nd)]
  else
    [.s (singleToDouble (idx + 1)), .s nd.description,
     .s nd.translatedDescription, .s "", .s xp,
     .s (jsDate node.timestamp), .s (stepUrl pd nd)]

/-- The per-step loop of generateExcel: for each step entry, in order, look
up the node (throws missingNode at that index if absent), add the data row,
then look up the screenshot record by timestamp to embed its image (throws
missingScreenshot at that index if absent). -/
def buildStepRows (pd : ParsedData) (tsMap : Nat → Option TSRecord)
    (jsDate : Int → String) (isVariant : Bool) :
    Nat → List StepData → Except BuildErr (List (List CellVal) × List SheetImage)
  | _, [] => .ok ([], [])
  | idx, nd :: rest =>
    match pd.nodes nd.screenshot with
    | none => .error (.missingNode idx)
    | some node =>
      match tsMap nd.timestamp with
      | none => .error (.missingScreenshot idx)
      | some tsrec =>
        match buildStepRows pd tsMap jsDate isVariant (idx + 1) rest with
        | .error e => .error e
        | .ok (rows, imgs) =>
          .ok (stepRow pd jsDate isVariant idx nd node :: rows,
               ⟨idx, tsrec.screenshot⟩ :: imgs)

/-- The eleven fixed key/value rows of the metadata sheet, in source order. -/
def metaRows (pd : ParsedData)
    (reducerName processName processDescription : String)
    (jsDate : Int → String) (apps : List String) : List (List CellVal) :=
  [[.s "Process name", .s processName],
   [.s "Process description", .s processDescription],
   [.s "Variant Name", .s reducerName],
   [.s "Apps involved", .s (String.intercalate "," apps)],
   [.s "Variant Created On", .s ((jsDate pd.count.created_on).dropRight 34)],
   [.s "Variant Max time", .s (epochToHHMMSS pd.count.max_time)],
   [.s "Variant Average Time", .s (epochToHHMMSS pd.count.avg_time)],
   [.s "Variant Coverage", .n pd.count.coverage],
   [.s "Variant Last run on", .s ((jsDate pd.count.last_run_on).dropRight 34)],
   [.s "Variant Number of runs", .s (singleToDouble pd.count.no_of_runs)],
   [.s "Variant Min time", .s (epochToHHMMSS pd.count.min_time)]]

/-- The plain-variant step-sheet columns. -/
def plainColumns : List (Option String × Nat) :=
  [(some "Step no", 10), (some "Description", 30), (some "Image", 65),
   (some "Xpath", 30), (some "Timestamp", 50), (some "URL", 50)]

/-- The translated-variant step-sheet columns. -/
def translatedColumns : List (Option String × Nat) :=
  [(some "Step no", 10), (some "Detailed description", 30),
   (some "Translated description", 30), (some "Image", 65), (some "Xpath", 30),
   (some "Timestamp", 50), (some "URL", 50)]

/-- All inputs generateExcel reads: the parsed variant, the reducer's name
and type flag, the process lookup response, the elasticsearch result, the
hashedTargetValue map and the ambient date rendering. -/
structure ExcelInput where
  parsedData : ParsedData
  reducerName : String
  reducerType : String
  processName : String
  processDescription : String
  elastic : List ElasticItem
  hashed : String → Option HashedSource
  jsDate : Int → String

/-- The metaSheet of generateExcel: 11 key/value rows, bold first column,
widths 40/50, no header row, no frozen view. -/
def excelMetaSheet (inp : ExcelInput) : Sheet :=
  { name := "Variant Metadata", frozen := false,
    columns := [(none, 40), (none, 50)],
    rows := metaRows inp.parsedData inp.reducerName inp.processName
      inp.processDescription inp.jsDate
      (apptypesNodeMailer inp.hashed inp.parsedData.stepData),
    firstColBold := true, headerRowBold := false, images := [],
    dataRowHeight := none }

/-- The stepSheet of generateExcel: frozen bold header row, mode-dependent
columns, the built data rows and images, data-row height 200. -/
def excelStepSheet (inp : ExcelInput) (rows : List (List CellVal))
    (imgs : List SheetImage) : Sheet :=
  { name := "Steps", frozen := true,
    columns := if inp.reducerType = "variant" then plainColumns
      else translatedColumns,
    rows := rows, firstColBold := false, headerRowBold := true,
    images := imgs, dataRowHeight := some 200 }

/-- generateExcel from NodeMailerSetup.md: build timeStampMap, aggregate
application types, lay out the metadata sheet, then the steps sheet (one row
and one image per step, aborting at the first unresolved step), and finalize
the workbook as an .xlsx file. -/
def generateExcel (inp : ExcelInput) : Except BuildErr ExcelFile :=
  match buildStepRows inp.parsedData (buildTimeStampMap inp.elastic) inp.jsDate
      (inp.reducerType = "variant") 0 inp.parsedData.stepData with
  | .error e => .error e
  | .ok (rows, imgs) =>
    .ok { name := inp.reducerName ++ ".xlsx",
          mime := "application/vnd.openxmlformats-officedocument.spreadsheetml.sheet",
          workbook := { sheets := [excelMetaSheet inp, excelStepSheet inp rows imgs] } }

/-- An image placed on a slide; the source's fixed fractional-inch offsets
are recorded in tenths of an inch to stay in integer arithmetic. -/
structure PptImage where
  data : String
  x : Nat
  y : Nat
  w : Nat
  h : Nat
deriving DecidableEq, Repr

/-- A text box placed on a slide (offsets in tenths of an inch). -/
structure PptText where
  text : String
  x : Nat
  y : Nat
  fontSize : Nat
  color : Option String
  align : Option String
deriving DecidableEq, Repr

structure Slide where
  images : List PptImage
  texts : List PptText
deriving DecidableEq, Repr

/-- The static pptxData asset consumed by generatePPT: two images and the
closing paragraph. -/
structure PptxData where
  image0 : String
  image1 : String
  paragraph : String
deriving DecidableEq, Repr

/-- Modelled from the spec: epochSingleToDouble, the run-count padding
formatter called by both PPT generators; only its call sites appear in src.
The spec's Timing and Metadata Formatter section defines the run-count
formatter as zero-padding to width two. -/
def epochSingleToDouble (runs : Nat) : String :=
  padStart2 (Nat.repr runs)

/-- The data record generatePPT assembles before slide creation. -/
structure PptReportData where
  processName : String
  processDescription : String
  variantName : String
  createdOn : String
  lastRunOn : String
  maxTime : String
  minTime : String
  avgTime : String
  noOfRuns : String
  appsInvolved : List String
  coverage : Nat
  steps : List StepData
  exported_by : String
deriving DecidableEq, Repr

/-- The finalized presentation file. -/
structure PptFile where
  name : String
  mime : String
  slides : List Slide
  report : PptReportData
  stepScreenshots : List String
deriving DecidableEq, Repr

/-- All inputs generatePPT reads: the variant counters, apps, coverage and
step data, the reducer name, the process lookup response, the elasticsearch
result, the static pptxData asset, and the ambient locale date rendering
(formatting of Intl.DateTimeFormat composed with formatting_datetime). -/
structure PptInput where
  count : Counters
  apps : List String
  coverage : Nat
  stepData : List StepData
  reducerName : String
  processName : String
  processDescription : String
  elastic : List ElasticItem
  pptxData : PptxData
  formatDate : Int → String

/-- generatePPT from MicrosoftGraph.md: assemble the report data record,
collect the screenshots present in the elasticsearch result (it iterates
only the records that exist and never resolves a per-step screenshot
reference), build the fixed-layout title and final slides from the static
pptxData asset, and serialize the presentation as a .pptx file. The only
throw sites in the source are the awaited process lookup and the pptx
library serialization, both external to this embedding, so the builder
always succeeds on its inputs. -/
def generatePPT (inp : PptInput) : Except BuildErr PptFile :=
  let data : PptReportData :=
    { processName := inp.processName,
      processDescription := inp.processDescription,
      variantName := inp.reducerName,
      createdOn := inp.formatDate inp.count.created_on,
      lastRunOn := inp.formatDate inp.count.last_run_on,
      maxTime := epochToHHMMSS inp.count.max_time,
      minTime := epochToHHMMSS inp.count.min_time,
      avgTime := epochToHHMMSS inp.count.avg_time,
      noOfRuns := epochSingleToDouble inp.count.no_of_runs,
      appsInvolved := inp.apps,
      coverage := inp.coverage,
      steps := inp.stepData,
      exported_by := "Process Analyst" }
  let stepScreenshots := inp.elastic.map ElasticItem.screenshot
  let titleSlide : Slide :=
    { images := [⟨inp.pptxData.image0, 38, 0, 20, 10⟩,
                 ⟨inp.pptxData.image1, 33, 10, 30, 30⟩],
      texts := [⟨"DataFlow Finder Report", 10, 45, 30, some "0d8390",
                 some "center"⟩] }
  let finalSlide : Slide :=
    { images := [⟨inp.pptxData.image0, 10, 0, 20, 10⟩],
      texts := [⟨inp.pptxData.paragraph, 10, 30, 10, none, none⟩] }
  .ok { name := inp.reducerName ++ ".pptx",
        mime := "application/vnd.openxmlformats-officedocument.presentationml.presentation",
        slides := [titleSlide, finalSlide],
        report := data,
        stepScreenshots := stepScreenshots }

/-- A text-first assembled Word document. -/
structure WordDoc where
  paragraphs : List String
deriving DecidableEq, Repr

/-- Modelled from the spec: VariantWordDoc, the out-of-scope
document-assembly routine the Word builder awaits (only its call site
appears in src). Per the spec it is text-first, consumes the variant's
enriched inputs and returns a structured document; it does not require
per-step screenshot resolution, so it yields a document for any variant. -/
def VariantWordDoc (pd : ParsedData) : Option WordDoc :=
  some ⟨pd.stepData.map StepData.description⟩

structure WordFile where
  name : String
  mime : String
  doc : WordDoc
deriving DecidableEq, Repr

/-- generateWord from NodeMailerSetup.md: await VariantWordDoc, throw if no
document came back, otherwise serialize it as name.docx. -/
def generateWord (pd : ParsedData) (reducerName : String) :
    Except BuildErr WordFile :=
  match VariantWordDoc pd with
  | none => .error .documentAssemblyFailed
  | some doc =>
    .ok { name := reducerName ++ ".docx",
          mime := "application/vnd.openxmlformats-officedocument.wordprocessingml.document",
          doc := doc }

structure PdfFile where
  name : String
  mime : String
  content : String
deriving DecidableEq, Repr

/-- generateDocument from part_001 (and NodeMailerSetup.md): the PDF builder
delegates rendering to the remote document-generation service and, given the
service's binary response, wraps the blob as name.pdf; it never touches the
screenshot index. -/
def generateDocumentPdf (responseBlob : String) (reducerName : String) :
    Except BuildErr PdfFile :=
  .ok { name := reducerName ++ ".pdf", mime := "application/pdf",
        content := responseBlob }

/-! ## Properties of the application-type aggregation -/

theorem mem_insertNew (acc : List String) (a x : String) :
    x ∈ insertNew acc a ↔ x ∈ acc ∨ x = a := by
  unfold insertNew
  by_cases h : a ∈ acc
  · simp only [h, if_true]
    constructor
    · exact Or.inl
    · rintro (hx | rfl)
      · exact hx
      · exact h
  · simp [h]

theorem nodup_insertNew (acc : List String) (a : String) (h : acc.Nodup) :
    (insertNew acc a).Nodup := by
  unfold insertNew
  by_cases ha : a ∈ acc
  · simpa [ha]
  · simp only [ha, if_false]
    simp [List.nodup_append, h, ha]

theorem mem_foldl_insertNew :
    ∀ (l acc : List String) (x : String),
      x ∈ l.foldl insertNew acc ↔ x ∈ acc ∨ x ∈ l := by
  intro l
  induction l with
  | nil => simp
  | cons a t ih =>
    intro acc x
    simp only [List.foldl_cons, ih, mem_insertNew, List.mem_cons]
    tauto

theorem nodup_foldl_insertNew :
    ∀ (l acc : List String), acc.Nodup → (l.foldl insertNew acc).Nodup := by
  intro l
  induction l with
  | nil => intro acc h; simpa
  | cons a t ih =>
    intro acc h
    exact ih _ (nodup_insertNew _ _ h)

theorem foldl_insertNew_cons :
    ∀ (l acc : List String) (a : String),
      l.foldl insertNew (a :: acc) =
        a :: (l.filter (fun b => decide (b ≠ a))).foldl insertNew acc := by
  intro l
  induction l with
  | nil => intro acc a; rfl
  | cons x t ih =>
    intro acc a
    by_cases hxa : x = a
    · subst hxa
      have h1 : insertNew (x :: acc) x = x :: acc := by simp [insertNew]
      have hfil : (x :: t).filter (fun b => decide (b ≠ x)) =
          t.filter (fun b => decide (b ≠ x)) := by simp
      rw [List.foldl_cons, h1, hfil, ih]
    · have hfil : (x :: t).filter (fun b => decide (b ≠ a)) =
          x :: t.filter (fun b => decide (b ≠ a)) := by simp [hxa]
      rw [List.foldl_cons, hfil, List.foldl_cons]
      by_cases hx : x ∈ acc
      · have h1 : insertNew (a :: acc) x = a :: acc := by
          simp [insertNew, List.mem_cons, hx]
        have h2 : insertNew acc x = acc := by simp [insertNew, hx]
        rw [h1, h2, ih]
      · have h1 : insertNew (a :: acc) x = a :: (acc ++ [x]) := by
          simp [insertNew, List.mem_cons, hx, hxa]
        have h2 : insertNew acc x = acc ++ [x] := by simp [insertNew, hx]
        rw [h1, h2, ih]

theorem firstDedup_cons (a : String) (l : List String) :
    firstDedup (a :: l) =
      a :: firstDedup (l.filter (fun b => decide (b ≠ a))) := by
  unfold firstDedup
  rw [List.foldl_cons]
  have h0 : insertNew [] a = [a] := by simp [insertNew]
  rw [h0]
  exact foldl_insertNew_cons l [] a

theorem nmAppTypeStep_eq (hashed : String → Option HashedSource)
    (acc : List String) (nd : StepData) :
    nmAppTypeStep hashed acc nd = (candidateApps hashed nd).foldl insertNew acc := by
  unfold nmAppTypeStep candidateApps
  rcases h1 : truthy ((hashed nd.screenshot).bind HashedSource.appType) with _ | a1 <;>
    rcases h2 : truthy ((hashed nd.screenshot).bind HashedSource.apptype) with _ | a2 <;>
      simp [insertNew]

theorem foldl_nmAppTypeStep (hashed : String → Option HashedSource) :
    ∀ (steps : List StepData) (acc : List String),
      steps.foldl (nmAppTypeStep hashed) acc =
        ((steps.map (candidateApps hashed)).flatten).foldl insertNew acc := by
  intro steps
  induction steps with
  | nil => intro acc; rfl
  | cons nd t ih =>
    intro acc
    simp only [List.foldl_cons, List.map_cons, List.flatten_cons, List.foldl_append]
    rw [nmAppTypeStep_eq, ih]

theorem graphAppTypeStep_eq (hashed : String → Option HashedSource)
    (acc : List String) (nd : StepData) :
    graphAppTypeStep hashed acc nd =
      ((graphCandidate hashed nd).toList).foldl insertNew acc := by
  unfold graphAppTypeStep
  rcases h : graphCandidate hashed nd with _ | a <;> simp [insertNew]

theorem foldl_graphAppTypeStep (hashed : String → Option HashedSource) :
    ∀ (steps : List StepData) (acc : List String),
      steps.foldl (graphAppTypeStep hashed) acc =
        (steps.filterMap (graphCandidate hashed)).foldl insertNew acc := by
  intro steps
  induction steps with
  | nil => intro acc; rfl
  | cons nd t ih =>
    intro acc
    rw [List.foldl_cons, List.filterMap_cons]
    rcases h : graphCandidate hashed nd with _ | a
    · rw [ih]
      have hstep : graphAppTypeStep hashed acc nd = acc := by
        unfold graphAppTypeStep
        rw [h]
      rw [hstep]
    · rw [List.foldl_cons, ih]
      have hstep : graphAppTypeStep hashed acc nd = insertNew acc a := by
        unfold graphAppTypeStep insertNew
        rw [h]
      rw [hstep]

/-- C6 counterexample: a step whose hashed record carries distinct values in
the legacy appType field ("A") and the current apptype field ("B"). The
claim says any value present via either field and not already recorded is
appended, but the MicrosoftGraph.md aggregation records only "A" and drops
"B"; the NodeMailerSetup.md aggregation records both. -/
theorem C6_apptype_counterexample :
    apptypesNodeMailer
        (fun s => if s = "shot1" then some ⟨some "A", some "B"⟩ else none)
        [⟨"click", "", "shot1", 100⟩] = ["A", "B"] ∧
    apptypesGraph
        (fun s => if s = "shot1" then some ⟨some "A", some "B"⟩ else none)
        [⟨"click", "", "shot1", 100⟩] = ["A"] ∧
    "B" ∉ apptypesGraph
        (fun s => if s = "shot1" then some ⟨some "A", some "B"⟩ else none)
        [⟨"click", "", "shot1", 100⟩] := by
  refine ⟨by decide, by decide, by decide⟩

/-- C6 (amended): the NodeMailerSetup.md aggregation consults both the
legacy and the current field per step and appends every truthy value not
already recorded, yielding the duplicate-free first-appearance deduplication
of the per-step candidate lists (legacy field first); a value appears in the
output exactly when some step carries it in either field. The
MicrosoftGraph.md aggregation instead considers only the first truthy of the
two fields per step. firstDedup keeps elements in order of first
appearance: its head is the first element and the tail recursively
deduplicates the remainder with that element removed. -/
theorem C6_apptype_aggregation :
    (∀ (hashed : String → Option HashedSource) (steps : List StepData),
      apptypesNodeMailer hashed steps =
        firstDedup ((steps.map (candidateApps hashed)).flatten)
      ∧ (apptypesNodeMailer hashed steps).Nodup
      ∧ (∀ a, a ∈ apptypesNodeMailer hashed steps ↔
          ∃ nd ∈ steps, a ∈ candidateApps hashed nd))
    ∧ (∀ (hashed : String → Option HashedSource) (steps : List StepData),
      apptypesGraph hashed steps =
        firstDedup (steps.filterMap (graphCandidate hashed)))
    ∧ (∀ (a : String) (l : List String),
      firstDedup (a :: l) =
        a :: firstDedup (l.filter (fun b => decide (b ≠ a)))) := by
  refine ⟨?_, ?_, firstDedup_cons⟩
  · intro hashed steps
    refine ⟨foldl_nmAppTypeStep hashed steps [], ?_, ?_⟩
    · unfold apptypesNodeMailer
      rw [foldl_nmAppTypeStep hashed steps []]
      exact nodup_foldl_insertNew _ _ (by simp)
    · intro a
      unfold apptypesNodeMailer
      rw [foldl_nmAppTypeStep hashed steps []]
      rw [mem_foldl_insertNew]
      simp [List.mem_flatten]
  · intro hashed steps
    exact foldl_graphAppTypeStep hashed steps []

/-! ## Properties of the Excel builder -/

theorem buildStepRows_ok (pd : ParsedData) (tsMap : Nat → Option TSRecord)
    (jsDate : Int → String) (isVariant : Bool) :
    ∀ (l : List StepData) (idx : Nat),
      (∀ nd ∈ l, (pd.nodes nd.screenshot).isSome = true ∧
        (tsMap nd.timestamp).isSome = true) →
      ∃ rows imgs,
        buildStepRows pd tsMap jsDate isVariant idx l = .ok (rows, imgs) ∧
        rows.length = l.length ∧ imgs.length = l.length := by
  intro l
  induction l with
  | nil =>
    intro idx _
    exact ⟨[], [], rfl, rfl, rfl⟩
  | cons nd t ih =>
    intro idx h
    obtain ⟨hnode, hts⟩ := h nd (by simp)
    obtain ⟨node, hnodeEq⟩ := Option.isSome_iff_exists.mp hnode
    obtain ⟨tsrec, htsEq⟩ := Option.isSome_iff_exists.mp hts
    obtain ⟨rows, imgs, heq, hlen, hlen2⟩ :=
      ih (idx + 1) (fun x hx => h x (by simp [hx]))
    refine ⟨stepRow pd jsDate isVariant idx nd node :: rows,
      ⟨idx, tsrec.screenshot⟩ :: imgs, ?_, by simp [hlen], by simp [hlen2]⟩
    unfold buildStepRows
    rw [hnodeEq, htsEq, heq]

theorem buildStepRows_first_missing (pd : ParsedData)
    (tsMap : Nat → Option TSRecord) (jsDate : Int → String) (isVariant : Bool) :
    ∀ (l : List StepData) (k idx : Nat) (hk : k < l.length),
      (∀ nd ∈ l, (pd.nodes nd.screenshot).isSome = true) →
      (∀ nd ∈ l.take k, (tsMap nd.timestamp).isSome = true) →
      tsMap (l.get ⟨k, hk⟩).timestamp = none →
      buildStepRows pd tsMap jsDate isVariant idx l =
        .error (.missingScreenshot (idx + k)) := by
  intro l
  induction l with
  | nil =>
    intro k idx hk
    exact absurd hk (by simp)
  | cons nd t ih =>
    intro k idx hk hnodes htake hmiss
    obtain ⟨node, hnodeEq⟩ :=
      Option.isSome_iff_exists.mp (hnodes nd (by simp))
    cases k with
    | zero =>
      have hmiss0 : tsMap nd.timestamp = none := hmiss
      unfold buildStepRows
      rw [hnodeEq, hmiss0]
      simp
    | succ k =>
      have hndts : (tsMap nd.timestamp).isSome = true := by
        refine htake nd ?_
        rw [List.take_succ_cons]
        simp
      obtain ⟨tsrec, htsEq⟩ := Option.isSome_iff_exists.mp hndts
      have hk' : k < t.length := by simpa using hk
      have hmiss' : tsMap (t.get ⟨k, hk'⟩).timestamp = none := hmiss
      have hrec := ih k (idx + 1) hk'
        (fun x hx => hnodes x (by simp [hx]))
        (fun x hx => htake x (by rw [List.take_succ_cons]; simp [hx]))
        hmiss'
      unfold buildStepRows
      rw [hnodeEq, htsEq, hrec]
      have harith : idx + 1 + k = idx + (k + 1) := by omega
      rw [harith]

/-- C5: for a variant whose steps all resolve (node entry and screenshot
record present for every step), generateExcel succeeds with a workbook of
exactly two sheets: the metadata sheet with exactly 11 two-cell key/value
rows and the steps sheet with a frozen bold header row, one data row per
step, and the mode-dependent column set (plain-variant: step no,
description, image, Xpath, timestamp, URL; translated mode additionally has
the translated-description column). -/
theorem C5_excel_workbook (inp : ExcelInput)
    (hres : ∀ nd ∈ inp.parsedData.stepData,
      (inp.parsedData.nodes nd.screenshot).isSome = true ∧
      (buildTimeStampMap inp.elastic nd.timestamp).isSome = true) :
    ∃ f, generateExcel inp = .ok f ∧
      f.workbook.sheets.length = 2 ∧
      ∃ meta stepsSheet, f.workbook.sheets = [meta, stepsSheet] ∧
        meta.name = "Variant Metadata" ∧
        meta.rows.length = 11 ∧
        (∀ r ∈ meta.rows, r.length = 2) ∧
        stepsSheet.name = "Steps" ∧
        stepsSheet.frozen = true ∧
        stepsSheet.headerRowBold = true ∧
        stepsSheet.rows.length = inp.parsedData.stepData.length ∧
        stepsSheet.columns.map Prod.fst =
          (if inp.reducerType = "variant" then
            [some "Step no", some "Description", some "Image", some "Xpath",
             some "Timestamp", some "URL"]
          else
            [some "Step no", some "Detailed description",
             some "Translated description", some "Image", some "Xpath",
             some "Timestamp", some "URL"]) := by
  obtain ⟨rows, imgs, heq, hlen, _⟩ :=
    buildStepRows_ok inp.parsedData (buildTimeStampMap inp.elastic) inp.jsDate
      (inp.reducerType = "variant") inp.parsedData.stepData 0 hres
  have hgen : generateExcel inp = .ok
      { name := inp.reducerName ++ ".xlsx",
        mime := "application/vnd.openxmlformats-officedocument.spreadsheetml.sheet",
        workbook := { sheets := [excelMetaSheet inp, excelStepSheet inp rows imgs] } } := by
    unfold generateExcel
    rw [heq]
  refine ⟨_, hgen, by simp, excelMetaSheet inp, excelStepSheet inp rows imgs,
    rfl, rfl, by simp [excelMetaSheet, metaRows], ?_, rfl, rfl, rfl,
    by simpa [excelStepSheet] using hlen, ?_⟩
  · intro r hr
    simp only [excelMetaSheet, metaRows, List.mem_cons, List.not_mem_nil,
      or_false] at hr
    rcases hr with rfl | rfl | rfl | rfl | rfl | rfl | rfl | rfl | rfl | rfl | rfl <;>
      rfl
  · by_cases hv : inp.reducerType = "variant" <;>
      simp [excelStepSheet, plainColumns, translatedColumns, hv]

/-- A concrete plain-variant export with three steps, every step's node and
screenshot record present. -/
def excelInputW : ExcelInput :=
  { parsedData :=
      { stepData :=
          [⟨"open app", "", "s1", 10⟩, ⟨"type value", "", "s2", 20⟩,
           ⟨"save", "", "s3", 30⟩],
        nodes := fun s =>
          if s = "s1" then some ⟨"SAP", "xp1", some ["http://a"], 1000⟩ else
          if s = "s2" then some ⟨"WEB", "", some ["http://b"], 2000⟩ else
          if s = "s3" then some ⟨"EXCEL", "", none, 3000⟩ else none,
        count := ⟨1000, 2000, 5000, 4000, 3000, 7, 80⟩ },
    reducerName := "variant-1", reducerType := "variant",
    processName := "proc", processDescription := "a process",
    elastic := [⟨10, "d1", "img1"⟩, ⟨20, "d2", "img2"⟩, ⟨30, "d3", "img3"⟩],
    hashed := fun _ => none,
    jsDate := fun _ => "Mon Jan 01 2024 00:00:00 GMT+0000 (Coordinated Universal Time)" }

/-- C5 witness: the Excel workbook theorem applied to the concrete
three-step plain-variant input. -/
theorem C5_excel_workbook_witness :
    ∃ f, generateExcel excelInputW = .ok f ∧
      f.workbook.sheets.length = 2 ∧
      ∃ meta stepsSheet, f.workbook.sheets = [meta, stepsSheet] ∧
        meta.name = "Variant Metadata" ∧
        meta.rows.length = 11 ∧
        (∀ r ∈ meta.rows, r.length = 2) ∧
        stepsSheet.name = "Steps" ∧
        stepsSheet.frozen = true ∧
        stepsSheet.headerRowBold = true ∧
        stepsSheet.rows.length = excelInputW.parsedData.stepData.length ∧
        stepsSheet.columns.map Prod.fst =
          (if excelInputW.reducerType = "variant" then
            [some "Step no", some "Description", some "Image", some "Xpath",
             some "Timestamp", some "URL"]
          else
            [some "Step no", some "Detailed description",
             some "Translated description", some "Image", some "Xpath",
             some "Timestamp", some "URL"]) :=
  C5_excel_workbook excelInputW (by decide)

/-- The variant used by the C1 theorems: a single step whose node entry is
present but whose screenshot record is absent from the (empty)
elasticsearch result. -/
def parsedDataCE : ParsedData :=
  { stepData := [⟨"open app", "", "s1", 100⟩],
    nodes := fun s =>
      if s = "s1" then some ⟨"SAP", "xp", some ["http://x"], 100⟩ else none,
    count := ⟨0, 0, 0, 0, 0, 1, 50⟩ }

def excelInputCE : ExcelInput :=
  { parsedData := parsedDataCE, reducerName := "v1", reducerType := "variant",
    processName := "p", processDescription := "pd", elastic := [],
    hashed := fun _ => none, jsDate := fun _ => "Thu Jan 01 1970" }

def pptInputCE : PptInput :=
  { count := ⟨0, 0, 0, 0, 0, 1, 50⟩, apps := [], coverage := 50,
    stepData := parsedDataCE.stepData, reducerName := "v1",
    processName := "p", processDescription := "pd", elastic := [],
    pptxData := ⟨"imgA", "imgB", "closing"⟩,
    formatDate := fun _ => "Thursday 1/1/1970" }

/-- C1 counterexample: on a variant whose single step has no screenshot
record, the Excel builder aborts at that step, but the PPT builder succeeds
rather than failing with MissingScreenshot: generatePPT only iterates the
records present in the elasticsearch result and never resolves a per-step
screenshot reference. -/
theorem C1_missing_screenshot_counterexample :
    buildTimeStampMap excelInputCE.elastic 100 = none ∧
    generateExcel excelInputCE = .error (.missingScreenshot 0) ∧
    (generatePPT pptInputCE).isOk = true ∧
    generatePPT pptInputCE ≠ .error (.missingScreenshot 0) := by
  refine ⟨rfl, rfl, rfl, ?_⟩
  intro hcontr
  simp [generatePPT] at hcontr

/-- C1 (amended): for a variant whose steps all have node entries and whose
first unresolved screenshot record sits at step index k, the Excel builder
fails at step k (the thrown error arises at that index; the notification the
source surfaces is generic), while the PPT, Word and PDF builders all
succeed: the PPT builder iterates only the screenshot records present and
never resolves per-step references, the PDF builder delegates to the remote
service, and the Word builder's assembly is text-first. -/
theorem C1_missing_screenshot_builders (inp : ExcelInput) (k : Nat)
    (hk : k < inp.parsedData.stepData.length)
    (hnodes : ∀ nd ∈ inp.parsedData.stepData,
      (inp.parsedData.nodes nd.screenshot).isSome = true)
    (hbefore : ∀ nd ∈ inp.parsedData.stepData.take k,
      (buildTimeStampMap inp.elastic nd.timestamp).isSome = true)
    (hmiss : buildTimeStampMap inp.elastic
        (inp.parsedData.stepData.get ⟨k, hk⟩).timestamp = none) :
    generateExcel inp = .error (.missingScreenshot k)
    ∧ (∀ pinp : PptInput, (generatePPT pinp).isOk = true)
    ∧ (∀ reducerName, (generateWord inp.parsedData reducerName).isOk = true)
    ∧ (∀ blob reducerName,
        (generateDocumentPdf blob reducerName).isOk = true) := by
  refine ⟨?_, fun pinp => rfl, fun reducerName => rfl, fun blob reducerName => rfl⟩
  have herr := buildStepRows_first_missing inp.parsedData
    (buildTimeStampMap inp.elastic) inp.jsDate (inp.reducerType = "variant")
    inp.parsedData.stepData k 0 hk hnodes hbefore hmiss
  unfold generateExcel
  rw [herr]
  simp

/-- C1 witness: the amended builders theorem applied to the concrete
one-step variant with a missing screenshot record, instantiating the
PPT/Word/PDF conclusions at concrete inputs. -/
theorem C1_missing_screenshot_witness :
    generateExcel excelInputCE = .error (.missingScreenshot 0) ∧
    (generatePPT pptInputCE).isOk = true ∧
    (generateWord excelInputCE.parsedData "v1").isOk = true ∧
    (generateDocumentPdf "blobdata" "v1").isOk = true :=
  let h := C1_missing_screenshot_builders excelInputCE 0 (by decide)
    (by decide) (by decide) (by decide)
  ⟨h.1, h.2.1 pptInputCE, h.2.2.1 "v1", h.2.2.2 "blobdata" "v1"⟩

/-! ## Artifact lifecycle (part_001)

generateDocument in part_001 dispatches the screen-block message and issues
the remote request unconditionally; the DocumentPreview component disables
its Generate button while isLoading. The preview-handle lifecycle is the
useEffect cleanup keyed on pdfPreviewUrl.
-/

/-- A dispatched notification (a CALL_NOTIFY payload). -/
structure Notif where
  kind : String
  msg : String
deriving DecidableEq, Repr

/-- The client state generateDocument manipulates: the screen-block message,
the preview URL and blob (object URLs are modelled as numbered handles), the
number of in-flight remote generations, the total number of remote requests
issued, and the dispatched notifications. -/
structure DocState where
  screenBlockMsg : String
  pdfPreviewUrl : Option Nat
  pdfBlob : Option Nat
  inFlight : Nat
  requestsIssued : Nat
  notifications : List Notif
deriving DecidableEq, Repr

/-- The synchronous prefix of generateDocument (part_001): dispatch the
screen-block message and issue the remote ProcessService.get request. The
source performs no state check of any kind before doing either. -/
def generateStart (s : DocState) : DocState :=
  { s with screenBlockMsg := "Generating preview...",
           inFlight := s.inFlight + 1,
           requestsIssued := s.requestsIssued + 1 }

/-- The resolution path of generateDocument: store the blob and a fresh
preview URL, notify success, and clear the screen-block message (finally). -/
def generateResolve (s : DocState) (blobId urlId : Nat) : DocState :=
  { s with pdfPreviewUrl := some urlId, pdfBlob := some blobId,
           inFlight := s.inFlight - 1,
           notifications := s.notifications ++
             [⟨"SUCCESS", "PDF generated. Preview before sending."⟩],
           screenBlockMsg := "" }

/-- The rejection path of generateDocument: notify the generic error and
clear the screen-block message (finally); the artifact state is untouched. -/
def generateReject (s : DocState) : DocState :=
  { s with inFlight := s.inFlight - 1,
           notifications := s.notifications ++
             [⟨"ERROR", "Unable to generate document"⟩],
           screenBlockMsg := "" }

/-- DocumentPreview renders its Generate button with disabled set to
isLoading. -/
def generateButtonDisabled (isLoading : Bool) : Bool :=
  isLoading

/-- The initial client state: no message, no artifact, nothing issued. -/
def docStateInit : DocState := ⟨"", none, none, 0, 0, []⟩

/-- C2 counterexample: starting from the idle state, a first generate call
puts the state in Generating (one request in flight), and a second generate
call issued in that state executes — the issued-request count reaches 2 —
and produces no notification at all, in particular no busy error. -/
theorem C2_reentrancy_counterexample :
    (generateStart docStateInit).inFlight = 1 ∧
    (generateStart (generateStart docStateInit)).requestsIssued = 2 ∧
    (generateStart (generateStart docStateInit)).notifications = [] := by
  refine ⟨rfl, rfl, rfl⟩

/-- C2 (amended): the generate operation performs no reentrancy check: a
second call while a generation is in flight issues another remote request
and emits no busy error (and no notification of any kind); reentrancy is
mitigated only at the UI layer, where DocumentPreview disables the Generate
button while isLoading is true. -/
theorem C2_generate_not_guarded (s : DocState) (hgen : 0 < s.inFlight) :
    (generateStart s).requestsIssued = s.requestsIssued + 1 ∧
    (generateStart s).notifications = s.notifications ∧
    (generateStart s).inFlight = s.inFlight + 1 ∧
    generateButtonDisabled true = true := by
  refine ⟨rfl, rfl, rfl, rfl⟩

/-- C2 witness: the no-guard theorem applied to the state reached by one
generate call from idle. -/
theorem C2_generate_not_guarded_witness :
    (generateStart (generateStart docStateInit)).requestsIssued =
      (generateStart docStateInit).requestsIssued + 1 ∧
    (generateStart (generateStart docStateInit)).notifications =
      (generateStart docStateInit).notifications ∧
    (generateStart (generateStart docStateInit)).inFlight =
      (generateStart docStateInit).inFlight + 1 ∧
    generateButtonDisabled true = true :=
  C2_generate_not_guarded (generateStart docStateInit) (by decide)

/-- The preview-handle lifecycle of part_001: pdfPreviewUrl together with
the useEffect cleanup keyed on it. Object URLs returned by
URL.createObjectURL are unique, modelled as consecutively numbered handles;
revoked records every URL.revokeObjectURL call, so a handle listed twice
would mean a double revocation. -/
structure PreviewSession where
  current : Option Nat
  nextId : Nat
  revoked : List Nat
deriving DecidableEq, Repr

/-- A successful generation replacing the preview: on re-render the cleanup
of the previous effect run revokes the outgoing handle (the if pdfPreviewUrl
guard skips the initial null), then the fresh handle becomes current. -/
def setNewPreview (s : PreviewSession) : PreviewSession :=
  { current := some s.nextId, nextId := s.nextId + 1,
    revoked := s.revoked ++ s.current.toList }

/-- Teardown (the user closes the preview or navigates away): the effect
cleanup revokes the current handle when one is live. -/
def unmountPreview (s : PreviewSession) : PreviewSession :=
  { s with current := none, revoked := s.revoked ++ s.current.toList }

/-- The initial session: pdfPreviewUrl is null, nothing revoked. -/
def previewInit : PreviewSession := ⟨none, 0, []⟩

/-- n repeated generate/preview cycles. -/
def runGenerates : Nat → PreviewSession → PreviewSession
  | 0, s => s
  | n + 1, s => runGenerates n (setNewPreview s)

/-- The session invariant: counting the live handle, every handle already
created is accounted for exactly once and no other handle was ever
revoked. -/
def previewInvariant (s : PreviewSession) : Prop :=
  ∀ h : Nat,
    (s.revoked ++ s.current.toList).count h = if h < s.nextId then 1 else 0

theorem previewInvariant_init : previewInvariant previewInit := by
  intro h
  simp [previewInit]

theorem previewInvariant_set (s : PreviewSession) (hs : previewInvariant s) :
    previewInvariant (setNewPreview s) := by
  intro h
  have hold := hs h
  have hcalc :
      ((setNewPreview s).revoked ++ (setNewPreview s).current.toList).count h =
        (s.revoked ++ s.current.toList).count h +
          (if h = s.nextId then 1 else 0) := by
    simp only [setNewPreview, List.count_append, List.count_cons,
      List.count_nil, Option.toList]
    by_cases hh : h = s.nextId
    · subst hh
      simp
    · have hh2 : ¬ s.nextId = h := fun he => hh he.symm
      simp only [beq_iff_eq, hh, hh2, if_false]
  rw [hcalc, hold]
  by_cases h1 : h = s.nextId
  · subst h1
    simp [setNewPreview]
  · by_cases h2 : h < s.nextId
    · simp [setNewPreview, h1, h2, Nat.lt_succ_of_lt h2]
    · have h3 : ¬ h < s.nextId + 1 := by omega
      simp [setNewPreview, h1, h2, h3]

theorem previewInvariant_unmount (s : PreviewSession)
    (hs : previewInvariant s) : previewInvariant (unmountPreview s) := by
  intro h
  have hold := hs h
  simpa [unmountPreview] using hold

theorem previewInvariant_run (n : Nat) :
    ∀ s, previewInvariant s → previewInvariant (runGenerates n s) := by
  induction n with
  | zero => intro s hs; exact hs
  | succ n ih =>
    intro s hs
    exact ih _ (previewInvariant_set s hs)

theorem runGenerates_nextId (n : Nat) :
    ∀ s, (runGenerates n s).nextId = s.nextId + n := by
  induction n with
  | zero => intro s; simp [runGenerates]
  | succ n ih =>
    intro s
    rw [runGenerates, ih]
    simp [setNewPreview]
    omega

/-- C3: across any number n of generate/preview cycles followed by teardown,
exactly n preview handles are created and every one of them is revoked
exactly once — the revocation counter of each created handle ends equal to
1, never 0 and never 2, a handle never created is never revoked, and the
final state holds no live handle, so no preview handle accumulates across
repeated cycles. -/
theorem C3_preview_handle_revocation (n h : Nat) :
    (unmountPreview (runGenerates n previewInit)).nextId = n ∧
    (unmountPreview (runGenerates n previewInit)).current = none ∧
    (unmountPreview (runGenerates n previewInit)).revoked.count h =
      (if h < n then 1 else 0) := by
  have hnext : (runGenerates n previewInit).nextId = n := by
    rw [runGenerates_nextId n previewInit]
    simp [previewInit]
  have hinv := previewInvariant_unmount _
    (previewInvariant_run n previewInit previewInvariant_init)
  refine ⟨hnext, rfl, ?_⟩
  have hc := hinv h
  simp only [unmountPreview] at hc ⊢
  simpa [hnext] using hc

/-! ## The send-mail endpoint (NodeMailerSetup.md, POST /send-mail)

The handler destructures to/cc/subject/body from the multipart body (each
possibly absent), returns 400 when to or subject is falsy (absent or the
empty string), and otherwise builds the mailOptions — to split on commas,
cc split when truthy else undefined, the optional file as a single
attachment or an empty attachment list — and calls the transport exactly
once, answering 200 on success and 500 when the transport throws.
-/

/-- A multipart field: absent, or present with a string value. An empty
string is present but falsy. -/
def falsyField : Option String → Bool
  | none => true
  | some s => s = ""

/-- The uploaded file part (multer memory storage). -/
structure FilePart where
  originalname : String
  buffer : String
  mimetype : String
deriving DecidableEq, Repr

/-- The parsed send-mail request. -/
structure MailRequest where
  «to» : Option String
  cc : Option String
  subject : Option String
  body : Option String
  file : Option FilePart
deriving DecidableEq, Repr

/-- One nodemailer attachment. -/
structure Attachment where
  filename : String
  content : String
  contentType : String
deriving DecidableEq, Repr

/-- The mailOptions passed to transporter.sendMail. -/
structure MailOptions where
  «to» : List String
  cc : Option (List String)
  subject : String
  text : Option String
  attachments : List Attachment
deriving DecidableEq, Repr

/-- The mailOptions construction of the handler (reached only after the
falsy guard, so the getD defaults never fire there): to.split(","),
cc ? cc.split(",") : undefined, the subject, the body as text, and the file
as a single attachment when present, else an empty attachment list. -/
def buildMailOptions (req : MailRequest) : MailOptions :=
  { «to» := (req.«to».getD "").splitOn ",",
    cc := if falsyField req.cc then none
      else some ((req.cc.getD "").splitOn ","),
    subject := req.subject.getD "",
    text := req.body,
    attachments :=
      match req.file with
      | some f => [⟨f.originalname, f.buffer, f.mimetype⟩]
      | none => [] }

/-- The observable outcome of one request to the endpoint: the HTTP status,
the JSON error or message body, the number of transport invocations and the
mailOptions handed to the transport, if any. -/
structure RouteResult where
  status : Nat
  errorMsg : Option String
  message : Option String
  transportCalls : Nat
  sentMail : Option MailOptions
deriving DecidableEq, Repr

/-- The POST /send-mail handler: 400 without touching the transport when to
or subject is falsy; otherwise invoke the transport exactly once with the
built mailOptions and answer 200, or 500 if the transport throws
(transportOk false). -/
def sendMailRoute (req : MailRequest) (transportOk : Bool) : RouteResult :=
  if falsyField req.«to» || falsyField req.subject then
    { status := 400, errorMsg := some "Recipient and subject are required",
      message := none, transportCalls := 0, sentMail := none }
  else
    if transportOk then
      { status := 200, errorMsg := none,
        message := some "Mail sent successfully",
        transportCalls := 1, sentMail := some (buildMailOptions req) }
    else
      { status := 500, errorMsg := some "Failed to send mail",
        message := none,
        transportCalls := 1, sentMail := some (buildMailOptions req) }

/-- C8 counterexample: a request whose recipient field is present but empty
(and whose subject is present and non-empty) is rejected with 400 and zero
transport calls, although neither field is missing — refuting the claimed
"if and only if the recipient field or the subject field is missing". -/
theorem C8_validation_counterexample :
    (sendMailRoute ⟨some "", none, some "Hello", some "body", none⟩ true).status = 400 ∧
    (sendMailRoute ⟨some "", none, some "Hello", some "body", none⟩ true).transportCalls = 0 ∧
    (⟨some "", none, some "Hello", some "body", none⟩ : MailRequest).«to» ≠ none ∧
    (⟨some "", none, some "Hello", some "body", none⟩ : MailRequest).subject ≠ none := by
  refine ⟨rfl, rfl, by decide, by decide⟩

/-- C8 (amended): the endpoint fails with 400 and zero transport calls if
and only if the recipient or the subject field is missing or empty (falsy);
when both are present and non-empty the transport is invoked exactly once
with the given recipients split on commas, the optional cc (split when
truthy, absent otherwise), the subject and the body. -/
theorem C8_send_validation (req : MailRequest) (transportOk : Bool) :
    ((sendMailRoute req transportOk).status = 400 ∧
        (sendMailRoute req transportOk).transportCalls = 0 ↔
      falsyField req.«to» = true ∨ falsyField req.subject = true)
    ∧ (falsyField req.«to» = false → falsyField req.subject = false →
        (sendMailRoute req transportOk).transportCalls = 1 ∧
        (sendMailRoute req transportOk).sentMail = some (buildMailOptions req)) := by
  unfold sendMailRoute
  cases hto : falsyField req.«to»
  · cases hsub : falsyField req.subject
    · cases hok : transportOk
      · simp
      · simp
    · simp
  · simp

/-- C8 witness: the amended validation theorem applied to a request with
truthy recipient and subject. -/
theorem C8_send_validation_witness :
    (sendMailRoute ⟨some "a@b.c", some "d@e.f", some "Hi", some "text", none⟩
        true).transportCalls = 1 ∧
    (sendMailRoute ⟨some "a@b.c", some "d@e.f", some "Hi", some "text", none⟩
        true).sentMail =
      some (buildMailOptions
        ⟨some "a@b.c", some "d@e.f", some "Hi", some "text", none⟩) :=
  (C8_send_validation
    ⟨some "a@b.c", some "d@e.f", some "Hi", some "text", none⟩ true).2
    (by decide) (by decide)

/-- C9: a send request carrying a truthy recipient and subject but no file
part is not rejected: the attachments ternary falls back to an empty list,
the transport is invoked exactly once with that empty attachments list, and
the endpoint reports success — exactly one artifact attachment is not
enforced by validation. -/
theorem C9_no_file_attachment (req : MailRequest)
    (hto : falsyField req.«to» = false) (hsub : falsyField req.subject = false)
    (hfile : req.file = none) :
    (sendMailRoute req true).status = 200 ∧
    (sendMailRoute req true).message = some "Mail sent successfully" ∧
    (sendMailRoute req true).transportCalls = 1 ∧
    (sendMailRoute req true).sentMail = some (buildMailOptions req) ∧
    (buildMailOptions req).attachments = [] := by
  unfold sendMailRoute
  simp [hto, hsub, buildMailOptions, hfile]

/-- C9 witness: the no-file theorem applied to a concrete request without a
file part. -/
theorem C9_no_file_attachment_witness :
    (sendMailRoute ⟨some "x@y.z", none, some "Subject", some "hello", none⟩
        true).status = 200 ∧
    (sendMailRoute ⟨some "x@y.z", none, some "Subject", some "hello", none⟩
        true).message = some "Mail sent successfully" ∧
    (sendMailRoute ⟨some "x@y.z", none, some "Subject", some "hello", none⟩
        true).transportCalls = 1 ∧
    (sendMailRoute ⟨some "x@y.z", none, some "Subject", some "hello", none⟩
        true).sentMail =
      some (buildMailOptions
        ⟨some "x@y.z", none, some "Subject", some "hello", none⟩) ∧
    (buildMailOptions
        ⟨some "x@y.z", none, some "Subject", some "hello", none⟩).attachments = [] :=
  C9_no_file_attachment ⟨some "x@y.z", none, some "Subject", some "hello", none⟩
    (by decide) (by decide) rfl

/-! ## Frame extraction gallery (App.tsx handleExtractFrames)

The backend response's frames array is mapped to gallery entries: id =
index + 1, url = backend base prepended, timestamp = (index / fps).toFixed(2).
The division is embedded in exact rational arithmetic; for the rates offered
by the selector (1, 5, 10, 24, 30 frames per second) the IEEE double the
source computes agrees with the exact rational at every rounding decision.
toFixed follows the ECMAScript rule: the integer closest to the scaled
value, ties to the larger.
-/

/-- ECMAScript Number.prototype.toFixed(2) for a non-negative rational: pick
the integer closest to q*100 (ties to the larger) and render it with exactly
two fraction digits. -/
def toFixed2 (q : ℚ) : String :=
  let n := (⌊q * 100 + 1 / 2⌋).toNat
  Nat.repr (n / 100) ++ "." ++ padStart2 (Nat.repr (n % 100))

/-- One gallery entry of the extracted-frames state. -/
structure ExtractedFrame where
  id : Nat
  url : String
  timestamp : String
deriving DecidableEq, Repr

/-- The frames.map of handleExtractFrames in App.tsx: entry index i becomes
id i+1, the backend base URL is prepended to the frame path, and the
timestamp is (i / fps).toFixed(2). -/
def mapFrames (backendUrl : String) (fps : Nat) (frames : List String) :
    List ExtractedFrame :=
  frames.enum.map fun p =>
    ⟨p.1 + 1, backendUrl ++ p.2, toFixed2 ((p.1 : ℚ) / (fps : ℚ))⟩

/-- C10: for every backend response with N frame URLs and every selected
rate fps > 0, the handler produces exactly N gallery entries in list order;
entry i (1-based id = i, i.e. position i-1 carries id i) points at the
backend-prefixed URL of the same position, and its timestamp renders a
number n/100 with exactly two decimal digits where n is within 1/2 of
100*(i-1)/fps — the decimal string of (i-1)/fps rounded to two places. -/
theorem C10_frame_gallery (backendUrl : String) (fps : Nat)
    (frames : List String) (hfps : 0 < fps) :
    (mapFrames backendUrl fps frames).length = frames.length ∧
    (∀ i : Nat, i < frames.length →
      ∃ u, frames[i]? = some u ∧
        ∃ n : Nat,
          (mapFrames backendUrl fps frames)[i]? = some
            ⟨i + 1, backendUrl ++ u,
             Nat.repr (n / 100) ++ "." ++ padStart2 (Nat.repr (n % 100))⟩ ∧
          |(n : ℚ) - 100 * ((i : ℚ) / (fps : ℚ))| ≤ 1 / 2) := by
  constructor
  · simp [mapFrames]
  · intro i hi
    refine ⟨frames.get ⟨i, hi⟩, by simp [List.getElem?_eq_getElem hi], ?_⟩
    set q : ℚ := (i : ℚ) / (fps : ℚ) with hqdef
    have hq0 : (0 : ℚ) ≤ q := by
      apply div_nonneg <;> positivity
    have hx0 : (0 : ℚ) ≤ q * 100 + 1 / 2 := by linarith
    have hfl0 : (0 : ℤ) ≤ ⌊q * 100 + 1 / 2⌋ := Int.floor_nonneg.mpr hx0
    refine ⟨(⌊q * 100 + 1 / 2⌋).toNat, ?_, ?_⟩
    · have hmap : (mapFrames backendUrl fps frames)[i]? =
          (frames.enum.map fun p =>
            (⟨p.1 + 1, backendUrl ++ p.2, toFixed2 ((p.1 : ℚ) / (fps : ℚ))⟩ :
              ExtractedFrame))[i]? := rfl
      rw [hmap, List.getElem?_map, List.getElem?_enum,
        List.getElem?_eq_getElem hi]
      rfl
    · have hcast : ((⌊q * 100 + 1 / 2⌋.toNat : ℕ) : ℚ) =
          ((⌊q * 100 + 1 / 2⌋ : ℤ) : ℚ) := by
        exact_mod_cast congrArg (Int.cast : ℤ → ℚ) (Int.toNat_of_nonneg hfl0)
      rw [hcast]
      have h1 : ((⌊q * 100 + 1 / 2⌋ : ℤ) : ℚ) ≤ q * 100 + 1 / 2 :=
        Int.floor_le _
      have h2 : q * 100 + 1 / 2 < ((⌊q * 100 + 1 / 2⌋ : ℤ) : ℚ) + 1 :=
        Int.lt_floor_add_one _
      rw [abs_le]
      constructor <;> linarith

/-- C10 witness: the gallery theorem applied to a concrete two-frame
response at 1 frame per second, instantiated at the second entry. -/
theorem C10_frame_gallery_witness :
    (mapFrames "http://b" 1 ["a.png", "b.png"]).length =
      (["a.png", "b.png"] : List String).length ∧
    (∃ u, (["a.png", "b.png"] : List String)[1]? = some u ∧
      ∃ n : Nat,
        (mapFrames "http://b" 1 ["a.png", "b.png"])[1]? = some
          ⟨1 + 1, "http://b" ++ u,
           Nat.repr (n / 100) ++ "." ++ padStart2 (Nat.repr (n % 100))⟩ ∧
        |(n : ℚ) - 100 * ((1 : ℚ) / ((1 : Nat) : ℚ))| ≤ 1 / 2) :=
  ⟨(C10_frame_gallery "http://b" 1 ["a.png", "b.png"] (by norm_num)).1,
   (C10_frame_gallery "http://b" 1 ["a.png", "b.png"] (by norm_num)).2 1
     (by norm_num)⟩

end Vid2Frames
